import Mathlib

/-!
Verification development for the chain storage and head-management subsystem
of the SpaceDogeChain client (go-sdcereum fork).

The repository slice under scrutiny contains:
  * `core/blockchain_sethead_test.go` — the rewind (set-head) test harness,
    with its `rewindTest` scenarios, `verifyNoGaps` and `verifyCutoff`;
  * `core/rawdb` metadata accessors — the unclean-shutdown marker ring
    (`PushUncleanShutdownMarker`, `PopUncleanShutdownMarker`,
    `UpdateUncleanShutdownMarker`);
  * `les/pruner_test.go` — the light-client pruner test;
  * `ethdb/remotedb/remotedb.go` — the read-only remote debug database.

The `SetHead` engine itself (`core/blockchain.go` / `core/headerchain.go`)
and the light pruner (`les/pruner.go`) are not present in the sources — only
their tests and callers are — so those two components are modelled from the
specification (see the doc comments marked "Modelled from the spec:"); all
other definitions are direct shallow embeddings of the Go sources.
-/

namespace SdcChain

/-- The observable state of the hybrid chain store, as exercised by
`core/blockchain_sethead_test.go`.  Numbers are block numbers.
* `headHeader`/`headFast`/`headFull` are the three persisted head pointers;
* `frozen` is the ancient-store entry count: ancient (frozen) canonical
  entries exist exactly for numbers `< frozen`;
* `liveLo` is the lowest number whose canonical header/body/receipts still
  have a live (key-value store) copy: live canonical entries occupy
  `liveLo ≤ n ≤ headHeader`;
* `side` is the retained side chain, `some (fork, stop)` meaning side-chain
  entries exist at numbers `fork < n ≤ stop` (stored by hash, forking off
  the canonical block `fork`); `none` means no side-chain data;
* `pivot` is the persisted last fast-sync pivot number, if any;
* `stateAt n` says whether a committed trie root for canonical block `n`
  is present on disk (the test commits the genesis and one chosen block). -/
structure ChainState where
  headHeader : Nat
  headFast : Nat
  headFull : Nat
  frozen : Nat
  liveLo : Nat
  side : Option (Nat × Nat)
  pivot : Option Nat
  stateAt : Nat → Bool

/-- The freshly initialised chain: only the genesis block exists, nothing is
frozen, all three heads point at genesis, and the genesis state is on disk. -/
def initState : ChainState :=
  { headHeader := 0, headFast := 0, headFull := 0, frozen := 0, liveLo := 0,
    side := none, pivot := none, stateAt := fun n => n == 0 }

/-- Modelled from the spec: the downward walk of `setHead` step 2 —
"walk downward from `min(headFullBlockNumber, targetNumber)` until a block is
found whose state root is actually present in the state store; if none is
found at or below target, fall back to 0 (genesis)" — together with the
fast-sync edge case of §4.2 ("we never got far enough to trust fast-synced
data"): once the walk reaches the recorded pivot without having found a
committed state, it gives up and aims for the genesis directly (the scenarios
of §8 with an uncommitted pivot expect the full head to collapse to 0). -/
def walkFull (stateAt : Nat → Bool) (pivot : Option Nat) : Nat → Nat
  | 0 => 0
  | b + 1 =>
    if stateAt (b + 1) then b + 1
    else
      match pivot with
      | none => walkFull stateAt pivot b
      | some p => if p < b + 1 then walkFull stateAt pivot b else 0

/-- Side-chain cleanup of `setHead`: all side-chain entries at numbers above
the new head are deleted (the fork point is never inspected — the explicit
simplicity-over-precision trade-off of the spec, §4.2 step 4). -/
def sideTrim (side : Option (Nat × Nat)) (newHead : Nat) : Option (Nat × Nat) :=
  match side with
  | none => none
  | some (fork, stop) =>
      if min stop newHead ≤ fork then none else some (fork, min stop newHead)

/-- Modelled from the spec: `setHead(targetNumber)` — the HeadTracker state
machine of §4.2, whose implementation (`core/blockchain.go` `SetHead` /
`core/headerchain.go` `SetHead`) is absent from the sources (only its test
harness `core/blockchain_sethead_test.go` is present).  Following §4.2 and
the §8 scenarios:
1. the target is clamped to the current header head (`t`);
2. the new full-block head is found by the downward state walk (`walkFull`);
3. a *deep* rollback is one whose target lies strictly inside the frozen
   range (`t + 1 < frozen`).  In a deep rollback the freezer is truncated
   rather than leaving stranded ancient data: if full-block data can be
   trusted (no pivot recorded, or the stateful head is at or past the
   pivot), everything above the last committed state is deleted — "truncation
   down to the last committed state at or below target" (§8 Scenario B) —
   and all three heads collapse there; otherwise (interrupted fast sync) the
   freezer is truncated to the target itself and fast-sync data below is
   kept.  In either deep case the live store is wiped up to the new frozen
   boundary so no ancient/live gap appears (§4.2 step 5);
4. in a shallow rollback only live data above the target is deleted;
5. the fast-block head becomes the new header head capped by its previous
   value (the §8 scenarios fix this as `min`; it keeps the head ordering
   invariant of §3);
6. side-chain data above the new head is deleted unconditionally. -/
def setHeadFn (s : ChainState) (n : Nat) : ChainState :=
  let t := min n s.headHeader
  let newFull := walkFull s.stateAt s.pivot (min s.headFull t)
  let force := match s.pivot with | none => true | some p => decide (p ≤ newFull)
  if t + 1 < s.frozen then
    if force then
      { headHeader := newFull, headFast := min s.headFast newFull,
        headFull := newFull, frozen := newFull + 1, liveLo := newFull + 1,
        side := sideTrim s.side newFull, pivot := s.pivot, stateAt := s.stateAt }
    else
      { headHeader := t, headFast := min s.headFast t,
        headFull := newFull, frozen := t + 1, liveLo := t + 1,
        side := sideTrim s.side t, pivot := s.pivot, stateAt := s.stateAt }
  else
    { headHeader := t, headFast := min s.headFast t,
      headFull := newFull, frozen := s.frozen, liveLo := s.liveLo,
      side := sideTrim s.side t, pivot := s.pivot, stateAt := s.stateAt }

/-- The operations the set-head test harness performs on the store
(`testSsdcead` in `core/blockchain_sethead_test.go`):
* `insertBlock` — full import of the next canonical block (header, body,
  receipts, td and canonical mapping written atomically; all heads advance);
* `commitState c` — flush the trie state of an already-executed block `c`
  to disk (`chain.stateCache.TrieDB().Commit`);
* `startSide fork` / `extendSide` — import of a side chain forking off the
  canonical block `fork` (side blocks are stored by hash and do not move the
  heads; the ancient range is guaranteed canonical, so a side chain can only
  fork at or above the frozen boundary);
* `freeze threshold` — a forced freeze cycle (`db.Freeze(threshold)`):
  canonical entries up to `headHeader - threshold` move into the ancient
  store and their live copies are deleted; side-chain data whose numbers
  fall under the new frozen boundary is deleted, and with it the whole now
  dangling side chain ("the side chain is nuked by the freezer");
* `writePivot p` — `rawdb.WriteLastPivotNumber`;
* `setHead n` — the rollback itself. -/
inductive ChainOp where
  | insertBlock
  | commitState (c : Nat)
  | startSide (fork : Nat)
  | extendSide
  | freeze (threshold : Nat)
  | writePivot (p : Nat)
  | setHead (n : Nat)

/-- One step of the store. -/
def applyOp (s : ChainState) : ChainOp → ChainState
  | .insertBlock =>
      { s with headHeader := s.headHeader + 1, headFast := s.headHeader + 1,
               headFull := s.headHeader + 1 }
  | .commitState c =>
      if c ≤ s.headFull then
        { s with stateAt := fun n => s.stateAt n || n == c }
      else s
  | .startSide fork =>
      match s.side with
      | some _ => s
      | none =>
          if s.frozen ≤ fork + 1 ∧ fork ≤ s.headHeader then
            { s with side := some (fork, fork + 1) }
          else s
  | .extendSide =>
      match s.side with
      | none => s
      | some (fork, stop) => { s with side := some (fork, stop + 1) }
  | .freeze threshold =>
      let F := max s.frozen (s.headHeader + 1 - threshold)
      { s with frozen := F, liveLo := F,
               side := match s.side with
                 | none => none
                 | some (fork, stop) =>
                     if fork + 1 < F then none else some (fork, stop) }
  | .writePivot p => { s with pivot := some p }
  | .setHead n => setHeadFn s n

/-- Run a sequence of operations from the fresh store. -/
def runOps (ops : List ChainOp) : ChainState :=
  ops.foldl applyOp initState

/-- A state of the store is reachable when some sequence of insertions,
commits, side imports, freezes, pivot writes and set-head calls produces it. -/
def Reachable (s : ChainState) : Prop :=
  ∃ ops : List ChainOp, runOps ops = s

/-- A canonical header entry for number `n` is readable (through the hybrid
ancient/live interface, as `GsdceaderByNumber` reads it). -/
def presentHeader (s : ChainState) (n : Nat) : Prop :=
  n < s.frozen ∨ (s.liveLo ≤ n ∧ n ≤ s.headHeader)

/-- A canonical body entry for number `n` is readable (bodies are written and
deleted together with headers in every flow of the harness). -/
def presentBody (s : ChainState) (n : Nat) : Prop :=
  n < s.frozen ∨ (s.liveLo ≤ n ∧ n ≤ s.headHeader)

/-- A canonical receipts entry for number `n` is readable. -/
def presentReceipts (s : ChainState) (n : Nat) : Prop :=
  n < s.frozen ∨ (s.liveLo ≤ n ∧ n ≤ s.headHeader)

/-- A side-chain entry (header+body+receipts, stored by hash) exists at
number `n`. -/
def presentSide (s : ChainState) (n : Nat) : Prop :=
  match s.side with
  | none => False
  | some (fork, stop) => fork < n ∧ n ≤ stop

instance (s : ChainState) (n : Nat) : Decidable (presentHeader s n) := by
  unfold presentHeader; exact inferInstance

instance (s : ChainState) (n : Nat) : Decidable (presentBody s n) := by
  unfold presentBody; exact inferInstance

instance (s : ChainState) (n : Nat) : Decidable (presentReceipts s n) := by
  unfold presentReceipts; exact inferInstance

instance (s : ChainState) (n : Nat) : Decidable (presentSide s n) := by
  unfold presentSide
  cases s.side with
  | none => exact inferInstanceAs (Decidable False)
  | some p => exact inferInstanceAs (Decidable (_ ∧ _))

/-- The well-formedness invariant of the store maintained by every
operation: head pointers are ordered, the live range starts at or below the
frozen boundary (no ancient/live gap), the ancient range does not extend past
the canonical head, and any retained side chain is nonempty and forks at or
above the frozen boundary (the ancient range is guaranteed canonical, §3). -/
def WF (s : ChainState) : Prop :=
  s.headFull ≤ s.headFast ∧ s.headFast ≤ s.headHeader ∧
  s.liveLo ≤ s.frozen ∧ s.frozen ≤ s.headHeader + 1 ∧
  ∀ fork stop, s.side = some (fork, stop) → s.frozen ≤ fork + 1 ∧ fork < stop

/-- Build-up of the §8 Scenario A test (`testShortSsdcead`) before the
rollback: a canonical chain of 8 blocks, state committed at block 4, a
freeze cycle with threshold 16 (freezing nothing), no pivot. -/
def scenarioAPrepOps : List ChainOp :=
  List.replicate 4 ChainOp.insertBlock ++ [ChainOp.commitState 4] ++
  List.replicate 4 ChainOp.insertBlock ++ [ChainOp.freeze 16]

/-- Operation sequence of Scenario A, ending with `setHead(7)`. -/
def scenarioAOps : List ChainOp := scenarioAPrepOps ++ [ChainOp.setHead 7]

/-- The store after running Scenario A. -/
def scenarioA : ChainState := runOps scenarioAOps

/-- Build-up of the §8 Scenario B test (`testLongDeepSsdcead`) before the
rollback: a canonical chain of 24 blocks, state committed at block 4, a
freeze cycle with threshold 16 (freezing blocks 0..8), no pivot. -/
def scenarioBPrepOps : List ChainOp :=
  List.replicate 4 ChainOp.insertBlock ++ [ChainOp.commitState 4] ++
  List.replicate 20 ChainOp.insertBlock ++ [ChainOp.freeze 16]

/-- Operation sequence of Scenario B, ending with `setHead(6)`. -/
def scenarioBOps : List ChainOp := scenarioBPrepOps ++ [ChainOp.setHead 6]

/-- The store after running Scenario B. -/
def scenarioB : ChainState := runOps scenarioBOps

/-- Operation sequence of the §8 Scenario C test
(`testLongNewerForkedShallowSsdcead`): a side chain of 12 blocks forking at
the genesis, a canonical chain of 18 blocks with state committed at block 4,
a freeze cycle with threshold 16 (freezing blocks 0..2 and nuking the side
chain), no pivot, then `setHead(6)`. -/
def scenarioCOps : List ChainOp :=
  [ChainOp.startSide 0] ++ List.replicate 11 ChainOp.extendSide ++
  List.replicate 4 ChainOp.insertBlock ++ [ChainOp.commitState 4] ++
  List.replicate 14 ChainOp.insertBlock ++ [ChainOp.freeze 16, ChainOp.setHead 6]

/-- The store after running Scenario C. -/
def scenarioC : ChainState := runOps scenarioCOps

/-- Structure `rewindTest` of `core/blockchain_sethead_test.go`: one chain
rollback test case — the chain to build (canonical length, side-chain
length, freeze threshold, committed block, optional pivot), the rollback
target, and the expected outcome (remaining canonical/side-chain blocks,
frozen entry count and the three head numbers). -/
structure rewindTest where
  canonicalBlocks : Nat
  sidechainBlocks : Nat
  freezsdcreshold : Nat
  commitBlock : Nat
  pivotBlock : Option Nat
  ssdceadBlock : Nat
  expCanonicalBlocks : Nat
  expSidechainBlocks : Nat
  expFrozen : Nat
  expHeadHeader : Nat
  expHeadFastBlock : Nat
  expHeadBlock : Nat

/-- Operation sequence performed by `testSsdcead` for one test case: import
the side chain (forking at the genesis), import the canonical chain
committing the state of the chosen block on the way, force a freeze cycle,
write the simulated pivot, and set the head back. -/
def rewindOps (tt : rewindTest) : List ChainOp :=
  (if tt.sidechainBlocks > 0 then
    ChainOp.startSide 0 :: List.replicate (tt.sidechainBlocks - 1) ChainOp.extendSide
  else []) ++
  List.replicate tt.commitBlock ChainOp.insertBlock ++
  (if tt.commitBlock > 0 then [ChainOp.commitState tt.commitBlock] else []) ++
  List.replicate (tt.canonicalBlocks - tt.commitBlock) ChainOp.insertBlock ++
  [ChainOp.freeze tt.freezsdcreshold] ++
  (match tt.pivotBlock with | none => [] | some p => [ChainOp.writePivot p]) ++
  [ChainOp.setHead tt.ssdceadBlock]

/-- The checks of `testSsdcead`, `verifyNoGaps` and `verifyCutoff` for one
test case: the three head numbers and the frozen entry count match, the
canonical chain is readable exactly up to `expCanonicalBlocks` with no gap,
and the side chain exactly up to `expSidechainBlocks`. -/
def checkRewind (tt : rewindTest) : Bool :=
  let s := runOps (rewindOps tt)
  s.headHeader == tt.expHeadHeader && s.headFast == tt.expHeadFastBlock &&
  s.headFull == tt.expHeadBlock && s.frozen == tt.expFrozen &&
  (List.range (tt.expCanonicalBlocks + 1)).all (fun m => decide (presentHeader s m)) &&
  !(decide (presentHeader s (tt.expCanonicalBlocks + 1))) &&
  (List.range' 1 tt.expSidechainBlocks).all (fun m => decide (presentSide s m)) &&
  !(decide (presentSide s (tt.expSidechainBlocks + 1)))

/-- All 36 rewind test cases of `core/blockchain_sethead_test.go`, in file
order (each appears there twice, with snapshots disabled and enabled, with
identical expectations). -/
def rewindTests : List rewindTest :=
  [⟨8, 0, 16, 4, none, 7, 7, 0, 0, 7, 7, 4⟩,
   ⟨8, 0, 16, 4, some 4, 7, 7, 0, 0, 7, 7, 4⟩,
   ⟨8, 0, 16, 0, some 4, 7, 7, 0, 0, 7, 7, 0⟩,
   ⟨8, 3, 16, 4, none, 7, 7, 3, 0, 7, 7, 4⟩,
   ⟨8, 3, 16, 4, some 4, 7, 7, 3, 0, 7, 7, 4⟩,
   ⟨8, 3, 16, 0, some 4, 7, 7, 3, 0, 7, 7, 0⟩,
   ⟨10, 8, 16, 4, none, 7, 7, 7, 0, 7, 7, 4⟩,
   ⟨10, 8, 16, 4, some 4, 7, 7, 7, 0, 7, 7, 4⟩,
   ⟨10, 8, 16, 0, some 4, 7, 7, 7, 0, 7, 7, 0⟩,
   ⟨8, 10, 16, 4, none, 7, 7, 7, 0, 7, 7, 4⟩,
   ⟨8, 10, 16, 4, some 4, 7, 7, 7, 0, 7, 7, 4⟩,
   ⟨8, 10, 16, 0, some 4, 7, 7, 7, 0, 7, 7, 0⟩,
   ⟨18, 0, 16, 4, none, 6, 6, 0, 3, 6, 6, 4⟩,
   ⟨24, 0, 16, 4, none, 6, 4, 0, 5, 4, 4, 4⟩,
   ⟨18, 0, 16, 4, some 4, 6, 6, 0, 3, 6, 6, 4⟩,
   ⟨24, 0, 16, 4, some 4, 6, 4, 0, 5, 4, 4, 4⟩,
   ⟨18, 0, 16, 0, some 4, 6, 6, 0, 3, 6, 6, 0⟩,
   ⟨24, 0, 16, 0, some 4, 6, 6, 0, 7, 6, 6, 0⟩,
   ⟨18, 3, 16, 4, none, 6, 6, 0, 3, 6, 6, 4⟩,
   ⟨24, 3, 16, 4, none, 6, 4, 0, 5, 4, 4, 4⟩,
   ⟨18, 3, 16, 4, some 4, 6, 6, 0, 3, 6, 6, 4⟩,
   ⟨24, 3, 16, 4, some 4, 6, 4, 0, 5, 4, 4, 4⟩,
   ⟨18, 3, 16, 0, some 4, 6, 6, 0, 3, 6, 6, 0⟩,
   ⟨24, 3, 16, 0, some 4, 6, 6, 0, 7, 6, 6, 0⟩,
   ⟨18, 12, 16, 4, none, 6, 6, 0, 3, 6, 6, 4⟩,
   ⟨24, 12, 16, 4, none, 6, 4, 0, 5, 4, 4, 4⟩,
   ⟨18, 12, 16, 4, some 4, 6, 6, 0, 3, 6, 6, 4⟩,
   ⟨24, 12, 16, 4, some 4, 6, 4, 0, 5, 4, 4, 4⟩,
   ⟨18, 12, 16, 0, some 4, 6, 6, 0, 3, 6, 6, 0⟩,
   ⟨24, 12, 16, 0, some 4, 6, 6, 0, 7, 6, 6, 0⟩,
   ⟨18, 26, 16, 4, none, 6, 6, 0, 3, 6, 6, 4⟩,
   ⟨24, 26, 16, 4, none, 6, 4, 0, 5, 4, 4, 4⟩,
   ⟨18, 26, 16, 4, some 4, 6, 6, 0, 3, 6, 6, 4⟩,
   ⟨24, 26, 16, 4, some 4, 6, 4, 0, 5, 4, 4, 4⟩,
   ⟨18, 26, 16, 0, some 4, 6, 6, 0, 3, 6, 6, 0⟩,
   ⟨24, 26, 16, 0, some 4, 6, 6, 0, 7, 6, 6, 0⟩]

end SdcChain

namespace SdcRawdb

/-- Structure `crashList` of `core/rawdb`: the rlp-persisted list of
unclean-shutdown markers — how many old markers have been deleted, and the
unix timestamps of the latest unclean shutdowns. -/
structure crashList where
  Discarded : Nat
  Recent : List Nat
deriving DecidableEq

/-- Constant `crashesToKeep` of `core/rawdb`. -/
def crashesToKeep : Nat := 10

/-- Function `PushUncleanShutdownMarker`: reads the stored list (an absent key
decodes to the zero value), appends the current timestamp `now`, caps the
list — dropping the oldest entries and adding their number to `Discarded`
once the length exceeds `crashesToKeep + 1` — stores it back and returns the
previous timestamps and previous discard count. -/
def PushUncleanShutdownMarker (cl : crashList) (now : Nat) : crashList × List Nat × Nat :=
  let previous := cl.Recent
  let discarded := cl.Discarded
  let recent1 := cl.Recent ++ [now]
  let cl2 :=
    if crashesToKeep + 1 < recent1.length then
      { Discarded := cl.Discarded + (recent1.length - (crashesToKeep + 1)),
        Recent := recent1.drop (recent1.length - (crashesToKeep + 1)) }
    else
      { Discarded := cl.Discarded, Recent := recent1 }
  (cl2, previous, discarded)

/-- Function `PopUncleanShutdownMarker`: removes the last (newest) marker, if any. -/
def PopUncleanShutdownMarker (cl : crashList) : crashList :=
  if 0 < cl.Recent.length then
    { cl with Recent := cl.Recent.take (cl.Recent.length - 1) }
  else cl

/-- Function `UpdateUncleanShutdownMarker`: overwrites the newest marker's timestamp
with `now`; warns and does nothing when the list is empty. -/
def UpdateUncleanShutdownMarker (cl : crashList) (now : Nat) : crashList :=
  if cl.Recent.length = 0 then cl
  else { cl with Recent := cl.Recent.set (cl.Recent.length - 1) now }

/-- A call against the marker store (timestamps are parameters, standing for
`time.Now().Unix()`). -/
inductive MarkerOp where
  | push (t : Nat)
  | pop
  | update (t : Nat)

def applyMarkerOp (cl : crashList) : MarkerOp → crashList
  | .push t => (PushUncleanShutdownMarker cl t).1
  | .pop => PopUncleanShutdownMarker cl
  | .update t => UpdateUncleanShutdownMarker cl t

/-- Run a call sequence against an initially empty database (the zero-value
`crashList`). -/
def runMarkerOps (ops : List MarkerOp) : crashList :=
  ops.foldl applyMarkerOp { Discarded := 0, Recent := [] }

end SdcRawdb

namespace SdcLesPruner

/-- The kinds of per-block entries the light client stores, as iterated by
`checkPruned` in `les/pruner_test.go` (prefixes "h…n", "h", "b", "r",
"h…t") together with the index data (CHT and bloom-trie nodes) that must
survive pruning. -/
inductive EntryKind where
  | canonicalHash
  | header
  | body
  | receipts
  | td
  | chtNode
  | bloomTrieNode
deriving DecidableEq

/-- Whether the pruner may delete entries of this kind: raw per-block chain
data is reconstructible from the confirmed CHT and is deleted; the index
trie nodes themselves are kept. -/
def prunable : EntryKind → Bool
  | .canonicalHash => true
  | .header => true
  | .body => true
  | .receipts => true
  | .td => true
  | .chtNode => false
  | .bloomTrieNode => false

/-- One stored key-value pair of the light client database. -/
structure LightEntry where
  kind : EntryKind
  number : Nat
  bytes : Nat
deriving DecidableEq

/-- Modelled from the spec: `prune` of the light-client pruner
(`les/pruner.go` is absent from the sources — only its test
`les/pruner_test.go` is present).  Per §4.4, pruning a confirmed section
range `[lo, hi]` iterates all stored keys with a number in the range and
deletes those whose data is stale — non-canonical, or canonical but already
reconstructible from a confirmed checkpoint — leaving everything else
untouched. -/
def prune (lo hi : Nat) (store : List LightEntry) : List LightEntry :=
  store.filter fun e =>
    !(prunable e.kind && decide (lo ≤ e.number) && decide (e.number ≤ hi))

/-- Total stored byte count of the light-client database. -/
def storedBytes (store : List LightEntry) : Nat :=
  (store.map LightEntry.bytes).sum

end SdcLesPruner

namespace SdcRemoteDb

/-- The remote node behind the `debug_dbGet` / `debug_dbAncient` RPC calls
of `ethdb/remotedb`: each call either returns bytes or fails (transport
error, method error, or missing data — indistinguishable to the caller). -/
structure RemoteClient where
  dbGet : List Nat → Except String (List Nat)
  dbAncient : String → Nat → Except String (List Nat)

/-- Function `Database.Get`: forwards the `debug_dbGet` call, propagating any
error. -/
def Database.Get (db : RemoteClient) (key : List Nat) : Except String (List Nat) :=
  db.dbGet key

/-- Function `Database.Has`: calls `Get` and returns `(false, nil)` whenever it
fails, `(true, nil)` otherwise. -/
def Database.Has (db : RemoteClient) (key : List Nat) : Bool × Option String :=
  match Database.Get db key with
  | .error _ => (false, none)
  | .ok _ => (true, none)

/-- Function `Database.Ancient`: forwards the `debug_dbAncient` call, propagating
any error. -/
def Database.Ancient (db : RemoteClient) (kind : String) (number : Nat) :
    Except String (List Nat) :=
  db.dbAncient kind number

/-- Function `Database.HasAncient`: calls `Ancient` and returns `(false, nil)`
whenever it fails, `(true, nil)` otherwise. -/
def Database.HasAncient (db : RemoteClient) (kind : String) (number : Nat) :
    Bool × Option String :=
  match Database.Ancient db kind number with
  | .error _ => (false, none)
  | .ok _ => (true, none)

/-- A remote client whose every call fails. -/
def failingClient : RemoteClient :=
  { dbGet := fun _ => Except.error "connection refused",
    dbAncient := fun _ _ => Except.error "connection refused" }

end SdcRemoteDb

namespace SdcChain

/-- The modelled store reproduces every rewind scenario of
`core/blockchain_sethead_test.go`: all 36 test cases pass against
`setHeadFn` and the modelled insert/commit/freeze/pivot operations. -/
theorem rewindTests_pass : rewindTests.all checkRewind = true := by decide

/-- The downward walk never overshoots its starting point. -/
theorem walkFull_le (st : Nat → Bool) (pv : Option Nat) (b : Nat) :
    walkFull st pv b ≤ b := by
  induction b with
  | zero => simp [walkFull]
  | succ b ih =>
    unfold walkFull
    split_ifs with h
    · exact Nat.le_refl _
    · cases pv with
      | none => exact Nat.le_succ_of_le ih
      | some p =>
        by_cases h2 : p < b + 1
        · simp only [if_pos h2]
          exact Nat.le_succ_of_le ih
        · simp only [if_neg h2]
          exact Nat.zero_le _

/-- The walk stops either at the genesis or at a block with on-disk state. -/
theorem walkFull_zero_or_state (st : Nat → Bool) (pv : Option Nat) (b : Nat) :
    walkFull st pv b = 0 ∨ st (walkFull st pv b) = true := by
  induction b with
  | zero => exact Or.inl rfl
  | succ b ih =>
    unfold walkFull
    split_ifs with h
    · exact Or.inr h
    · cases pv with
      | none => exact ih
      | some p =>
        by_cases h2 : p < b + 1
        · simp only [if_pos h2]; exact ih
        · simp only [if_neg h2]; exact Or.inl trivial

/-- Restarting the walk from its own result does not move it. -/
theorem walkFull_idem (st : Nat → Bool) (pv : Option Nat) (b : Nat) :
    walkFull st pv (walkFull st pv b) = walkFull st pv b := by
  rcases walkFull_zero_or_state st pv b with h | h
  · rw [h]; rfl
  · cases hw : walkFull st pv b with
    | zero => rfl
    | succ r =>
      rw [hw] at h
      unfold walkFull
      rw [if_pos h]

/-- Characterisation of the side-chain trim: a side entry survives exactly
when the side chain existed, its fork point lies below the new head, and the
retained top is the old top capped by the new head. -/
theorem sideTrim_eq_some {side : Option (Nat × Nat)} {X fork stop : Nat}
    (h : sideTrim side X = some (fork, stop)) :
    ∃ s0, side = some (fork, s0) ∧ stop = min s0 X ∧ fork < min s0 X := by
  cases side with
  | none => exact absurd h (by simp [sideTrim])
  | some p =>
    obtain ⟨f0, s0⟩ := p
    have h2 : (if min s0 X ≤ f0 then none else some (f0, min s0 X)) = some (fork, stop) := h
    by_cases hc : min s0 X ≤ f0
    · rw [if_pos hc] at h2
      exact Option.noConfusion h2
    · rw [if_neg hc] at h2
      simp only [Option.some.injEq, Prod.mk.injEq] at h2
      obtain ⟨hf, hs⟩ := h2
      subst hf
      subst hs
      exact ⟨s0, rfl, rfl, Nat.lt_of_not_le hc⟩

theorem WF_initState : WF initState := by
  refine ⟨Nat.le_refl _, Nat.le_refl _, Nat.le_refl _, Nat.le_succ 0, ?_⟩
  intro fork stop hsome
  simp [initState] at hsome

theorem WF_setHeadFn (s : ChainState) (n : Nat) (h : WF s) : WF (setHeadFn s n) := by
  obtain ⟨hffa, hfah, hlf, hfh, hside⟩ := h
  have hwle : walkFull s.stateAt s.pivot (min s.headFull (min n s.headHeader)) ≤
      min s.headFull (min n s.headHeader) := walkFull_le _ _ _
  have hwfull : walkFull s.stateAt s.pivot (min s.headFull (min n s.headHeader)) ≤
      s.headFull := hwle.trans (Nat.min_le_left _ _)
  have hwt : walkFull s.stateAt s.pivot (min s.headFull (min n s.headHeader)) ≤
      min n s.headHeader := hwle.trans (Nat.min_le_right _ _)
  simp only [setHeadFn]
  split_ifs with hdeep hforce
  · -- deep rollback, full-block data trusted: collapse to the stateful head
    refine ⟨Nat.le_min.mpr ⟨hwfull.trans hffa, Nat.le_refl _⟩,
      Nat.min_le_right _ _, Nat.le_refl _, Nat.le_refl _, ?_⟩
    intro fork stop hst
    obtain ⟨s0, hs, _, hlt⟩ := sideTrim_eq_some hst
    obtain ⟨hf1, _⟩ := hside fork s0 hs
    have htf : min n s.headHeader < fork :=
      Nat.lt_of_succ_lt_succ (Nat.lt_of_lt_of_le hdeep hf1)
    have : fork < fork :=
      Nat.lt_of_lt_of_le (Nat.lt_of_lt_of_le hlt (Nat.min_le_right _ _))
        (hwt.trans (Nat.le_of_lt htf))
    exact absurd this (Nat.lt_irrefl _)
  · -- deep rollback during an interrupted fast sync: truncate to the target
    refine ⟨Nat.le_min.mpr ⟨hwfull.trans hffa, hwt⟩,
      Nat.min_le_right _ _, Nat.le_refl _, Nat.le_refl _, ?_⟩
    intro fork stop hst
    obtain ⟨s0, hs, _, hlt⟩ := sideTrim_eq_some hst
    obtain ⟨hf1, _⟩ := hside fork s0 hs
    have htf : min n s.headHeader < fork :=
      Nat.lt_of_succ_lt_succ (Nat.lt_of_lt_of_le hdeep hf1)
    have : fork < fork :=
      Nat.lt_of_lt_of_le (Nat.lt_of_lt_of_le hlt (Nat.min_le_right _ _))
        (Nat.le_of_lt htf)
    exact absurd this (Nat.lt_irrefl _)
  · -- shallow rollback: live data above the target is deleted
    refine ⟨Nat.le_min.mpr ⟨hwfull.trans hffa, hwt⟩,
      Nat.min_le_right _ _, hlf, Nat.le_of_not_lt hdeep, ?_⟩
    intro fork stop hst
    obtain ⟨s0, hs, hstop, hlt⟩ := sideTrim_eq_some hst
    obtain ⟨hf1, _⟩ := hside fork s0 hs
    exact ⟨hf1, hstop ▸ hlt⟩

theorem WF_applyOp (s : ChainState) (op : ChainOp) (h : WF s) : WF (applyOp s op) := by
  obtain ⟨hffa, hfah, hlf, hfh, hside⟩ := h
  cases op with
  | insertBlock =>
    exact ⟨Nat.le_refl _, Nat.le_refl _, hlf,
      hfh.trans (Nat.succ_le_succ (Nat.le_succ _)), fun fork stop hs => hside fork stop hs⟩
  | commitState c =>
    simp only [applyOp]
    split_ifs with hc
    · exact ⟨hffa, hfah, hlf, hfh, fun fork stop hs => hside fork stop hs⟩
    · exact ⟨hffa, hfah, hlf, hfh, hside⟩
  | startSide fork =>
    simp only [applyOp]
    cases hs : s.side with
    | some p => exact ⟨hffa, hfah, hlf, hfh, hside⟩
    | none =>
      split_ifs with hg
      · refine ⟨hffa, hfah, hlf, hfh, ?_⟩
        intro f1 s1 hsome
        simp only [Option.some.injEq, Prod.mk.injEq] at hsome
        obtain ⟨hf, hs1⟩ := hsome
        subst hf
        subst hs1
        exact ⟨hg.1, Nat.lt_succ_self _⟩
      · exact ⟨hffa, hfah, hlf, hfh, hside⟩
  | extendSide =>
    simp only [applyOp]
    cases hs : s.side with
    | none => exact ⟨hffa, hfah, hlf, hfh, hside⟩
    | some p =>
      obtain ⟨f0, s0⟩ := p
      refine ⟨hffa, hfah, hlf, hfh, ?_⟩
      intro f1 s1 hsome
      simp only [Option.some.injEq, Prod.mk.injEq] at hsome
      obtain ⟨hf, hs1⟩ := hsome
      obtain ⟨ha, hb⟩ := hside f0 s0 hs
      subst hf
      subst hs1
      exact ⟨ha, hb.trans (Nat.lt_succ_self _)⟩
  | freeze threshold =>
    refine ⟨hffa, hfah, Nat.le_refl _,
      Nat.max_le.mpr ⟨hfh, Nat.sub_le _ _⟩, ?_⟩
    intro f0 s0 hsome
    cases hs : s.side with
    | none =>
      simp only [applyOp, hs] at hsome
      exact Option.noConfusion hsome
    | some p =>
      obtain ⟨f1, s1⟩ := p
      simp only [applyOp, hs] at hsome
      by_cases hcut : f1 + 1 < max s.frozen (s.headHeader + 1 - threshold)
      · rw [if_pos hcut] at hsome
        exact Option.noConfusion hsome
      · rw [if_neg hcut] at hsome
        simp only [Option.some.injEq, Prod.mk.injEq] at hsome
        obtain ⟨hf, hs1'⟩ := hsome
        subst hf
        subst hs1'
        exact ⟨Nat.le_of_not_lt hcut, (hside f1 s1 hs).2⟩
  | writePivot p => exact ⟨hffa, hfah, hlf, hfh, hside⟩
  | setHead n => exact WF_setHeadFn s n ⟨hffa, hfah, hlf, hfh, hside⟩

theorem WF_foldl (ops : List ChainOp) (s : ChainState) (h : WF s) :
    WF (List.foldl applyOp s ops) := by
  induction ops generalizing s with
  | nil => exact h
  | cons op ops ih => exact ih (applyOp s op) (WF_applyOp s op h)

theorem WF_runOps (ops : List ChainOp) : WF (runOps ops) :=
  WF_foldl ops initState WF_initState

theorem Reachable.wf {s : ChainState} (h : Reachable s) : WF s := by
  obtain ⟨ops, hops⟩ := h
  exact hops ▸ WF_runOps ops

theorem setHeadFn_deep_force (s : ChainState) (n : Nat)
    (hdeep : min n s.headHeader + 1 < s.frozen)
    (hforce : (match s.pivot with
      | none => true
      | some p => decide (p ≤ walkFull s.stateAt s.pivot (min s.headFull (min n s.headHeader)))) = true) :
    setHeadFn s n =
      { headHeader := walkFull s.stateAt s.pivot (min s.headFull (min n s.headHeader)),
        headFast := min s.headFast (walkFull s.stateAt s.pivot (min s.headFull (min n s.headHeader))),
        headFull := walkFull s.stateAt s.pivot (min s.headFull (min n s.headHeader)),
        frozen := walkFull s.stateAt s.pivot (min s.headFull (min n s.headHeader)) + 1,
        liveLo := walkFull s.stateAt s.pivot (min s.headFull (min n s.headHeader)) + 1,
        side := sideTrim s.side (walkFull s.stateAt s.pivot (min s.headFull (min n s.headHeader))),
        pivot := s.pivot, stateAt := s.stateAt } := by
  simp only [setHeadFn, if_pos hdeep, if_pos hforce]

theorem setHeadFn_deep_noforce (s : ChainState) (n : Nat)
    (hdeep : min n s.headHeader + 1 < s.frozen)
    (hforce : ¬ ((match s.pivot with
      | none => true
      | some p => decide (p ≤ walkFull s.stateAt s.pivot (min s.headFull (min n s.headHeader)))) = true)) :
    setHeadFn s n =
      { headHeader := min n s.headHeader,
        headFast := min s.headFast (min n s.headHeader),
        headFull := walkFull s.stateAt s.pivot (min s.headFull (min n s.headHeader)),
        frozen := min n s.headHeader + 1,
        liveLo := min n s.headHeader + 1,
        side := sideTrim s.side (min n s.headHeader),
        pivot := s.pivot, stateAt := s.stateAt } := by
  simp only [setHeadFn, if_pos hdeep, if_neg hforce]

theorem setHeadFn_shallow (s : ChainState) (n : Nat)
    (hdeep : ¬ (min n s.headHeader + 1 < s.frozen)) :
    setHeadFn s n =
      { headHeader := min n s.headHeader,
        headFast := min s.headFast (min n s.headHeader),
        headFull := walkFull s.stateAt s.pivot (min s.headFull (min n s.headHeader)),
        frozen := s.frozen,
        liveLo := s.liveLo,
        side := sideTrim s.side (min n s.headHeader),
        pivot := s.pivot, stateAt := s.stateAt } := by
  simp only [setHeadFn, if_neg hdeep]

/-- Trimming a side chain twice to the same head is the same as trimming once. -/
theorem sideTrim_idem (side : Option (Nat × Nat)) (X : Nat) :
    sideTrim (sideTrim side X) X = sideTrim side X := by
  cases side with
  | none => rfl
  | some p =>
    obtain ⟨f0, s0⟩ := p
    by_cases hc : min s0 X ≤ f0
    · simp only [sideTrim, if_pos hc]
    · have h2 : min (min s0 X) X = min s0 X :=
        Nat.min_eq_left (Nat.min_le_right _ _)
      simp only [sideTrim, if_neg hc, h2]

/-- Setting the head twice to the same target yields the very same store
state as setting it once (idempotence of the rollback). -/
theorem setHeadFn_setHeadFn (s : ChainState) (n : Nat) :
    setHeadFn (setHeadFn s n) n = setHeadFn s n := by
  have htn : min n s.headHeader ≤ n := Nat.min_le_left _ _
  have hwle : walkFull s.stateAt s.pivot (min s.headFull (min n s.headHeader)) ≤
      min s.headFull (min n s.headHeader) := walkFull_le _ _ _
  have hwt : walkFull s.stateAt s.pivot (min s.headFull (min n s.headHeader)) ≤
      min n s.headHeader := hwle.trans (Nat.min_le_right _ _)
  have hwn : walkFull s.stateAt s.pivot (min s.headFull (min n s.headHeader)) ≤ n :=
    hwt.trans htn
  have hidem := walkFull_idem s.stateAt s.pivot (min s.headFull (min n s.headHeader))
  by_cases hdeep : min n s.headHeader + 1 < s.frozen
  · by_cases hforce : (match s.pivot with
      | none => true
      | some p => decide (p ≤ walkFull s.stateAt s.pivot (min s.headFull (min n s.headHeader)))) = true
    · rw [setHeadFn_deep_force s n hdeep hforce]
      simp only [setHeadFn, Nat.min_eq_right hwn, Nat.min_self, hidem,
        Nat.min_eq_left (Nat.min_le_right s.headFast
          (walkFull s.stateAt s.pivot (min s.headFull (min n s.headHeader)))),
        sideTrim_idem]
      rw [if_neg (Nat.lt_irrefl _)]
    · rw [setHeadFn_deep_noforce s n hdeep hforce]
      simp only [setHeadFn, Nat.min_eq_right htn, Nat.min_eq_left hwt, hidem,
        Nat.min_eq_left (Nat.min_le_right s.headFast (min n s.headHeader)),
        sideTrim_idem]
      rw [if_neg (Nat.lt_irrefl _)]
  · rw [setHeadFn_shallow s n hdeep]
    simp only [setHeadFn, Nat.min_eq_right htn, Nat.min_eq_left hwt, hidem,
      Nat.min_eq_left (Nat.min_le_right s.headFast (min n s.headHeader)),
      sideTrim_idem]
    rw [if_neg hdeep]

/-- After a rollback the header head never exceeds the (clamped) target. -/
theorem setHead_headHeader_le (s : ChainState) (n : Nat) :
    (setHeadFn s n).headHeader ≤ min n s.headHeader := by
  have hwt : walkFull s.stateAt s.pivot (min s.headFull (min n s.headHeader)) ≤
      min n s.headHeader := (walkFull_le _ _ _).trans (Nat.min_le_right _ _)
  by_cases hdeep : min n s.headHeader + 1 < s.frozen
  · by_cases hforce : (match s.pivot with
      | none => true
      | some p => decide (p ≤ walkFull s.stateAt s.pivot (min s.headFull (min n s.headHeader)))) = true
    · rw [setHeadFn_deep_force s n hdeep hforce]
      exact hwt
    · rw [setHeadFn_deep_noforce s n hdeep hforce]
  · rw [setHeadFn_shallow s n hdeep]

/-- After a rollback the ancient store never extends past the (clamped)
target: every frozen entry has number at most the clamped target. -/
theorem setHead_frozen_le (s : ChainState) (n : Nat) :
    (setHeadFn s n).frozen ≤ min n s.headHeader + 1 := by
  have hwt : walkFull s.stateAt s.pivot (min s.headFull (min n s.headHeader)) ≤
      min n s.headHeader := (walkFull_le _ _ _).trans (Nat.min_le_right _ _)
  by_cases hdeep : min n s.headHeader + 1 < s.frozen
  · by_cases hforce : (match s.pivot with
      | none => true
      | some p => decide (p ≤ walkFull s.stateAt s.pivot (min s.headFull (min n s.headHeader)))) = true
    · rw [setHeadFn_deep_force s n hdeep hforce]
      exact Nat.succ_le_succ hwt
    · rw [setHeadFn_deep_noforce s n hdeep hforce]
  · rw [setHeadFn_shallow s n hdeep]
    exact Nat.le_of_not_lt hdeep

/-- After a rollback no side-chain entry dangles past the new header head,
no matter where the fork point of the side chain was. -/
theorem setHead_side_le (s : ChainState) (n : Nat) (m : Nat)
    (hp : presentSide (setHeadFn s n) m) : m ≤ (setHeadFn s n).headHeader := by
  have key : ∀ (side : Option (Nat × Nat)) (X : Nat),
      (match sideTrim side X with
        | none => False
        | some (fork, stop) => fork < m ∧ m ≤ stop) → m ≤ X := by
    intro side X hq
    cases hres : sideTrim side X with
    | none => rw [hres] at hq; exact absurd hq id
    | some q =>
      obtain ⟨f1, s1⟩ := q
      rw [hres] at hq
      obtain ⟨s0, _, hstop, _⟩ := sideTrim_eq_some hres
      exact hq.2.trans (hstop ▸ Nat.min_le_right s0 X)
  by_cases hdeep : min n s.headHeader + 1 < s.frozen
  · by_cases hforce : (match s.pivot with
      | none => true
      | some p => decide (p ≤ walkFull s.stateAt s.pivot (min s.headFull (min n s.headHeader)))) = true
    · rw [setHeadFn_deep_force s n hdeep hforce] at hp ⊢
      exact key s.side _ hp
    · rw [setHeadFn_deep_noforce s n hdeep hforce] at hp ⊢
      exact key s.side _ hp
  · rw [setHeadFn_shallow s n hdeep] at hp ⊢
    exact key s.side _ hp

/-- In a well-formed store every canonical number up to the header head is
readable: the ancient range and the live range together leave no gap. -/
theorem WF.presentHeader_of_le {s : ChainState} (h : WF s) {m : Nat}
    (hm : m ≤ s.headHeader) : presentHeader s m := by
  by_cases hl : s.liveLo ≤ m
  · exact Or.inr ⟨hl, hm⟩
  · exact Or.inl (Nat.lt_of_lt_of_le (Nat.lt_of_not_le hl) h.2.2.1)

/-- The retained side-chain numbers always form a contiguous range. -/
theorem presentSide_convex (s : ChainState) {a b c : Nat} (hab : a ≤ b) (hbc : b ≤ c)
    (ha : presentSide s a) (hc : presentSide s c) : presentSide s b := by
  unfold presentSide at ha hc ⊢
  cases hs : s.side with
  | none =>
    simp only [hs] at ha
  | some p =>
    obtain ⟨f0, s0⟩ := p
    simp only [hs] at ha hc ⊢
    exact ⟨Nat.lt_of_lt_of_le ha.1 hab, hbc.trans hc.2⟩

/-- After `setHead(n)` no canonical entry above the clamped target is
readable any more. -/
theorem setHead_absent_canon (s : ChainState) (n m : Nat)
    (hm : min n s.headHeader < m) : ¬ presentHeader (setHeadFn s n) m := by
  intro hp
  cases hp with
  | inl h1 =>
    have h2 : min n s.headHeader + 1 ≤ m := Nat.succ_le_of_lt hm
    exact absurd (Nat.lt_of_lt_of_le h1 (setHead_frozen_le s n)) (Nat.not_lt.mpr h2)
  | inr h2 =>
    exact absurd (h2.2.trans (setHead_headHeader_le s n)) (Nat.not_le.mpr hm)

/-- After `setHead(n)` no side-chain entry above the clamped target is
readable any more. -/
theorem setHead_absent_side (s : ChainState) (n m : Nat)
    (hm : min n s.headHeader < m) : ¬ presentSide (setHeadFn s n) m := fun hp =>
  absurd ((setHead_side_le s n m hp).trans (setHead_headHeader_le s n)) (Nat.not_le.mpr hm)

/-- Canonical entries at or below the target either survive `setHead(n)` or
were victims of the ancient-store truncation of a deep rollback (they sat in
the old frozen range and fell out of the new one). -/
theorem setHead_retain_canon (s : ChainState) (n m : Nat) (hN : n ≤ s.headHeader)
    (hm : m ≤ n) (hp : presentHeader s m) :
    presentHeader (setHeadFn s n) m ∨ ((setHeadFn s n).frozen ≤ m ∧ m < s.frozen) := by
  have ht : min n s.headHeader = n := Nat.min_eq_left hN
  by_cases hdeep : min n s.headHeader + 1 < s.frozen
  · by_cases hforce : (match s.pivot with
      | none => true
      | some p => decide (p ≤ walkFull s.stateAt s.pivot (min s.headFull (min n s.headHeader)))) = true
    · rw [setHeadFn_deep_force s n hdeep hforce]
      by_cases hw : m ≤ walkFull s.stateAt s.pivot (min s.headFull (min n s.headHeader))
      · exact Or.inl (Or.inl (Nat.lt_succ_of_le hw))
      · refine Or.inr ⟨Nat.succ_le_of_lt (Nat.lt_of_not_le hw), ?_⟩
        rw [ht] at hdeep
        exact Nat.lt_trans (Nat.lt_succ_of_le hm) hdeep
    · rw [setHeadFn_deep_noforce s n hdeep hforce]
      refine Or.inl (Or.inl ?_)
      rw [ht]
      exact Nat.lt_succ_of_le hm
  · rw [setHeadFn_shallow s n hdeep]
    cases hp with
    | inl h1 => exact Or.inl (Or.inl h1)
    | inr h2 =>
      refine Or.inl (Or.inr ⟨h2.1, ?_⟩)
      rw [ht]
      exact hm

/-- Side-chain entries at or below the target always survive `setHead(n)`
in a well-formed store (a side chain reaching into a deep-rollback frozen
range cannot exist, since side chains fork above the frozen boundary). -/
theorem setHead_retain_side (s : ChainState) (n m : Nat) (h : WF s)
    (hN : n ≤ s.headHeader) (hm : m ≤ n) (hp : presentSide s m) :
    presentSide (setHeadFn s n) m := by
  have ht : min n s.headHeader = n := Nat.min_eq_left hN
  unfold presentSide at hp
  cases hs : s.side with
  | none => simp only [hs] at hp
  | some p =>
    obtain ⟨f0, s0⟩ := p
    simp only [hs] at hp
    by_cases hdeep : min n s.headHeader + 1 < s.frozen
    · obtain ⟨hf1, _⟩ := h.2.2.2.2 f0 s0 hs
      rw [ht] at hdeep
      have h1 : n < f0 := Nat.lt_of_succ_lt_succ (Nat.lt_of_lt_of_le hdeep hf1)
      have h2 : f0 < n := Nat.lt_of_lt_of_le hp.1 hm
      exact absurd h2 (Nat.lt_asymm h1)
    · rw [setHeadFn_shallow s n hdeep]
      have hmin : f0 < min s0 (min n s.headHeader) := by
        rw [ht]
        exact Nat.lt_min.mpr ⟨Nat.lt_of_lt_of_le hp.1 hp.2, Nat.lt_of_lt_of_le hp.1 hm⟩
      have htrim : sideTrim (some (f0, s0)) (min n s.headHeader) =
          some (f0, min s0 (min n s.headHeader)) := by
        simp only [sideTrim, if_neg (Nat.not_le.mpr hmin)]
      unfold presentSide
      simp only [hs, htrim]
      refine ⟨hp.1, ?_⟩
      rw [ht]
      exact Nat.le_min.mpr ⟨hp.2, hm⟩

/-- C1: Head ordering invariant — in every reachable state of the store
(after any sequence of block insertions, state commits, side-chain imports,
freezes, pivot writes and `setHead` calls) the three persisted head pointers
satisfy `headFullBlockNumber ≤ headFastBlockNumber ≤ headHeaderNumber`. -/
theorem claim_C1_headOrderingInvariant (s : ChainState) (h : Reachable s) :
    s.headFull ≤ s.headFast ∧ s.headFast ≤ s.headHeader :=
  ⟨h.wf.1, h.wf.2.1⟩

/-- Witness for C1 at the concrete Scenario-A state. -/
theorem claim_C1_headOrderingInvariant_witness :
    Reachable scenarioA ∧
      scenarioA.headFull ≤ scenarioA.headFast ∧ scenarioA.headFast ≤ scenarioA.headHeader :=
  ⟨⟨scenarioAOps, rfl⟩, claim_C1_headOrderingInvariant scenarioA ⟨scenarioAOps, rfl⟩⟩

/-- C3: No-gap invariant — in every state reached by a `setHead` call from a
reachable store state, every canonical number from 0 up to the new header
head has its header, body and receipts entries readable (no missing number
in between), and the retained side-chain numbers form a contiguous range. -/
theorem claim_C3_noGapInvariant (s : ChainState) (N : Nat) (h : Reachable s) :
    (∀ m, m ≤ (setHeadFn s N).headHeader →
      presentHeader (setHeadFn s N) m ∧ presentBody (setHeadFn s N) m ∧
        presentReceipts (setHeadFn s N) m) ∧
    (∀ a b c, a ≤ b → b ≤ c → presentSide (setHeadFn s N) a →
      presentSide (setHeadFn s N) c → presentSide (setHeadFn s N) b) := by
  have hwf : WF (setHeadFn s N) := WF_setHeadFn s N h.wf
  exact ⟨fun m hm => ⟨hwf.presentHeader_of_le hm, hwf.presentHeader_of_le hm,
      hwf.presentHeader_of_le hm⟩,
    fun a b c hab hbc ha hc => presentSide_convex _ hab hbc ha hc⟩

/-- Witness for C3: after Scenario A's `setHead(7)`, block 5 is readable. -/
theorem claim_C3_noGapInvariant_witness :
    presentHeader scenarioA 5 ∧ presentBody scenarioA 5 ∧ presentReceipts scenarioA 5 :=
  (claim_C3_noGapInvariant (runOps scenarioAPrepOps) 7
      ⟨scenarioAPrepOps, rfl⟩).1 5 (by decide)

/-- C2 (amended): cutoff postcondition of `setHead` — for every reachable
chain state and every target `N` not above the current header head, after
`setHead(N)` every header, body, receipts and side-chain entry at a number
strictly greater than `N` is absent, and every entry at a number `≤ N` that
was present before is still present, except canonical entries removed by the
ancient-store truncation of a deep rollback (entries inside the old frozen
range that fell out of the new one). -/
theorem claim_C2_cutoff (s : ChainState) (N : Nat) (h : Reachable s)
    (hN : N ≤ s.headHeader) :
    (∀ m, N < m →
      ¬ presentHeader (setHeadFn s N) m ∧ ¬ presentBody (setHeadFn s N) m ∧
      ¬ presentReceipts (setHeadFn s N) m ∧ ¬ presentSide (setHeadFn s N) m) ∧
    (∀ m, m ≤ N →
      (presentHeader s m →
        presentHeader (setHeadFn s N) m ∨ ((setHeadFn s N).frozen ≤ m ∧ m < s.frozen)) ∧
      (presentBody s m →
        presentBody (setHeadFn s N) m ∨ ((setHeadFn s N).frozen ≤ m ∧ m < s.frozen)) ∧
      (presentReceipts s m →
        presentReceipts (setHeadFn s N) m ∨ ((setHeadFn s N).frozen ≤ m ∧ m < s.frozen)) ∧
      (presentSide s m → presentSide (setHeadFn s N) m)) := by
  have ht : min N s.headHeader = N := Nat.min_eq_left hN
  refine ⟨fun m hm => ?_, fun m hm => ?_⟩
  · have hm' : min N s.headHeader < m := by rw [ht]; exact hm
    exact ⟨setHead_absent_canon s N m hm', setHead_absent_canon s N m hm',
      setHead_absent_canon s N m hm', setHead_absent_side s N m hm'⟩
  · exact ⟨setHead_retain_canon s N m hN hm, setHead_retain_canon s N m hN hm,
      setHead_retain_canon s N m hN hm, setHead_retain_side s N m h.wf hN hm⟩

/-- Witness for C2 at Scenario B's pre-rollback state with target 6: block 7
is gone afterwards, block 3 (ancient) survives. -/
theorem claim_C2_cutoff_witness :
    (¬ presentHeader scenarioB 7) ∧
      (presentHeader scenarioB 3 ∨ (scenarioB.frozen ≤ 3 ∧
        3 < (runOps scenarioBPrepOps).frozen)) :=
  ⟨((claim_C2_cutoff (runOps scenarioBPrepOps) 6 ⟨scenarioBPrepOps, rfl⟩
        (by decide)).1 7 (by decide)).1,
    ((claim_C2_cutoff (runOps scenarioBPrepOps) 6 ⟨scenarioBPrepOps, rfl⟩
        (by decide)).2 3 (by decide)).1 (by decide)⟩

/-- Counterexample to C2 as stated: the claim quantifies over *every*
target `N`, but for a target above the current header head the deletions cut
at the clamped target, so a side-chain entry at a number `≤ N` can vanish
without any ancient-store truncation.  Concretely: canonical chain of 8
blocks plus a side chain of 10 blocks forking at the genesis; `setHead(9)`
deletes side entries 9 and 10 although 9 ≤ 9, while the (empty) ancient
store is untouched. -/
theorem claim_C2_cutoff_counterexample :
    presentSide (runOps (List.replicate 8 ChainOp.insertBlock ++
        [ChainOp.startSide 0] ++ List.replicate 9 ChainOp.extendSide)) 9 ∧
    ¬ presentSide (setHeadFn (runOps (List.replicate 8 ChainOp.insertBlock ++
        [ChainOp.startSide 0] ++ List.replicate 9 ChainOp.extendSide)) 9) 9 ∧
    (setHeadFn (runOps (List.replicate 8 ChainOp.insertBlock ++
        [ChainOp.startSide 0] ++ List.replicate 9 ChainOp.extendSide)) 9).frozen = 0 ∧
    (runOps (List.replicate 8 ChainOp.insertBlock ++
        [ChainOp.startSide 0] ++ List.replicate 9 ChainOp.extendSide)).frozen = 0 := by
  decide

/-- C8: SetHead idempotence — for every chain state and every target,
calling `setHead` twice in a row produces exactly the same final state (head
pointers, frozen/live boundaries, side chain, pivot and on-disk states) as
calling it once. -/
theorem claim_C8_setHeadIdempotent (s : ChainState) (n : Nat) :
    setHeadFn (setHeadFn s n) n = setHeadFn s n :=
  setHeadFn_setHeadFn s n

/-- C6: Scenario A — canonical chain of 8 blocks, no side chain, state
committed at block 4, nothing frozen, no pivot; `setHead(7)` ends with
header head 7, fast head 7, full head 4 (the nearest block at or below the
target whose state is on disk: 4 is committed, 5..7 are not) and an empty
ancient store. -/
theorem claim_C6_scenarioA :
    scenarioA.headHeader = 7 ∧ scenarioA.headFast = 7 ∧ scenarioA.headFull = 4 ∧
    scenarioA.frozen = 0 ∧
    scenarioA.stateAt 4 = true ∧ scenarioA.stateAt 5 = false ∧
    scenarioA.stateAt 6 = false ∧ scenarioA.stateAt 7 = false := by decide

/-- C4: Scenario B — canonical chain of 24 blocks with freeze threshold 16
(blocks 0..8 frozen), state committed at block 4, no pivot; `setHead(6)`
ends with header = fast = full head = 4 and exactly 5 ancient entries (the
genesis plus blocks 1..4): the target fell inside the frozen range and the
freezer was truncated down to the last committed state below it. -/
theorem claim_C4_scenarioB :
    scenarioB.headHeader = 4 ∧ scenarioB.headFast = 4 ∧ scenarioB.headFull = 4 ∧
    scenarioB.frozen = 5 ∧
    presentHeader scenarioB 0 ∧ presentHeader scenarioB 1 ∧ presentHeader scenarioB 2 ∧
    presentHeader scenarioB 3 ∧ presentHeader scenarioB 4 ∧ ¬ presentHeader scenarioB 5 ∧
    scenarioB.stateAt 4 = true := by decide

/-- C5: Scenario C — canonical chain of 18 blocks plus a 12-block side chain
with freeze threshold 16: after `setHead(6)` the side chain is entirely gone
(no side entry remains, at any number), the canonical chain is retained up
to 6, and exactly 3 ancient entries remain; moreover, in full generality, no
side-chain entry is ever left dangling past the new head after a `setHead`,
wherever the fork point was. -/
theorem claim_C5_scenarioC :
    (scenarioC.side = none ∧ scenarioC.frozen = 3 ∧ scenarioC.headHeader = 6 ∧
      (¬ presentSide scenarioC 1) ∧ (¬ presentSide scenarioC 6) ∧
      (¬ presentSide scenarioC 12) ∧
      presentHeader scenarioC 0 ∧ presentHeader scenarioC 3 ∧
      presentHeader scenarioC 6 ∧ ¬ presentHeader scenarioC 7) ∧
    ∀ (s : ChainState) (n m : Nat), (setHeadFn s n).headHeader < m →
      ¬ presentSide (setHeadFn s n) m :=
  ⟨by decide, fun s n m hm hp =>
    absurd (setHead_side_le s n m hp) (Nat.not_le.mpr hm)⟩

/-- Witness for C5's general no-dangling clause at a concrete input. -/
theorem claim_C5_scenarioC_witness :
    ¬ presentSide (setHeadFn scenarioC 3) 99 :=
  claim_C5_scenarioC.2 scenarioC 3 99 (by decide)

end SdcChain

namespace SdcRawdb

/-- A push always leaves at most `crashesToKeep + 1` timestamps, keeps the
newest suffix of the appended list, and counts exactly the dropped entries. -/
theorem push_spec (cl : crashList) (t : Nat) :
    (PushUncleanShutdownMarker cl t).1.Recent.length ≤ crashesToKeep + 1 ∧
    (PushUncleanShutdownMarker cl t).1.Recent =
      (cl.Recent ++ [t]).drop
        (cl.Recent.length + 1 - (PushUncleanShutdownMarker cl t).1.Recent.length) ∧
    (PushUncleanShutdownMarker cl t).1.Discarded =
      cl.Discarded +
        (cl.Recent.length + 1 - (PushUncleanShutdownMarker cl t).1.Recent.length) := by
  by_cases hc : crashesToKeep + 1 < (cl.Recent ++ [t]).length
  · have hlen : (cl.Recent ++ [t]).length = cl.Recent.length + 1 := by
      simp [List.length_append]
    simp only [PushUncleanShutdownMarker, if_pos hc]
    rw [hlen] at hc ⊢
    have hdrop : ((cl.Recent ++ [t]).drop (cl.Recent.length + 1 - (crashesToKeep + 1))).length =
        crashesToKeep + 1 := by
      rw [List.length_drop, hlen]
      omega
    refine ⟨le_of_eq hdrop, ?_, ?_⟩
    · rw [hdrop]
    · rw [hdrop]
  · have hlen : (cl.Recent ++ [t]).length = cl.Recent.length + 1 := by
      simp [List.length_append]
    simp only [PushUncleanShutdownMarker, if_neg hc]
    rw [hlen] at hc
    refine ⟨?_, ?_, ?_⟩
    · rw [hlen]; omega
    · rw [hlen]
      simp
    · rw [hlen]
      simp

/-- Every operation keeps the stored list at `crashesToKeep + 1` entries or
fewer (starting from the empty database). -/
theorem markerOps_len_le (ops : List MarkerOp) :
    (runMarkerOps ops).Recent.length ≤ crashesToKeep + 1 := by
  have step : ∀ (cl : crashList) (op : MarkerOp),
      cl.Recent.length ≤ crashesToKeep + 1 →
      (applyMarkerOp cl op).Recent.length ≤ crashesToKeep + 1 := by
    intro cl op h
    cases op with
    | push t => exact (push_spec cl t).1
    | pop =>
      simp only [applyMarkerOp, PopUncleanShutdownMarker]
      split_ifs with h0
      · simp only [List.length_take]
        omega
      · exact h
    | update t =>
      simp only [applyMarkerOp, UpdateUncleanShutdownMarker]
      split_ifs with h0
      · exact h
      · simp only [List.length_set]
        exact h
  have main : ∀ (ops : List MarkerOp) (cl : crashList),
      cl.Recent.length ≤ crashesToKeep + 1 →
      (ops.foldl applyMarkerOp cl).Recent.length ≤ crashesToKeep + 1 := by
    intro ops
    induction ops with
    | nil => intro cl h; exact h
    | cons op ops ih => intro cl h; exact ih _ (step cl op h)
  exact main ops _ (by simp)

/-- C7 counterexample: eleven pushes into an initially empty database leave
eleven stored timestamps — more than the ten the claim allows. -/
theorem claim_C7_markerCap_counterexample :
    crashesToKeep <
      (runMarkerOps (List.replicate 11 (MarkerOp.push 0))).Recent.length ∧
    (runMarkerOps (List.replicate 11 (MarkerOp.push 0))).Recent.length = 11 := by
  decide

/-- C7 (amended): for every sequence of push/pop/update calls starting from
an empty database the persisted list never holds more than
`crashesToKeep + 1 = 11` timestamps (the ten retained crashes plus the
marker of the running instance); a push drops exactly the oldest entries
beyond that cap and increments `Discarded` by exactly the number dropped. -/
theorem claim_C7_markerCap (ops : List MarkerOp) (t : Nat) :
    (runMarkerOps ops).Recent.length ≤ crashesToKeep + 1 ∧
    (PushUncleanShutdownMarker (runMarkerOps ops) t).1.Recent =
      ((runMarkerOps ops).Recent ++ [t]).drop
        ((runMarkerOps ops).Recent.length + 1 -
          (PushUncleanShutdownMarker (runMarkerOps ops) t).1.Recent.length) ∧
    (PushUncleanShutdownMarker (runMarkerOps ops) t).1.Discarded =
      (runMarkerOps ops).Discarded +
        ((runMarkerOps ops).Recent.length + 1 -
          (PushUncleanShutdownMarker (runMarkerOps ops) t).1.Recent.length) :=
  ⟨markerOps_len_le ops, (push_spec (runMarkerOps ops) t).2.1,
    (push_spec (runMarkerOps ops) t).2.2⟩

end SdcRawdb

namespace SdcLesPruner

theorem filter_self_idem {α : Type} (p : α → Bool) (l : List α) :
    (l.filter p).filter p = l.filter p := by
  induction l with
  | nil => rfl
  | cons a l ih =>
    by_cases h : p a
    · simp [List.filter_cons, h, ih]
    · simp [List.filter_cons, h, ih]

/-- C9: Pruner idempotence — for every confirmed section range, pruning a
store that has already been pruned over that range deletes nothing: the
stored entries, hence the stored byte count, are identical after the second
run. -/
theorem claim_C9_prunerIdempotent (lo hi : Nat) (store : List LightEntry) :
    prune lo hi (prune lo hi store) = prune lo hi store ∧
    storedBytes (prune lo hi (prune lo hi store)) = storedBytes (prune lo hi store) := by
  have h : prune lo hi (prune lo hi store) = prune lo hi store :=
    filter_self_idem _ store
  exact ⟨h, congrArg storedBytes h⟩

end SdcLesPruner

namespace SdcRemoteDb

/-- C10: the remote database's existence checks never surface an error —
whenever `Get` (resp. `Ancient`) fails for any reason, `Has`
(resp. `HasAncient`) returns `(false, nil)`, and the error component is
always `nil`, so a caller cannot distinguish missing data from a failed
remote lookup. -/
theorem claim_C10_hasNeverErrors (db : RemoteClient) (key : List Nat)
    (kind : String) (number : Nat) :
    (∀ e, Database.Get db key = Except.error e →
      Database.Has db key = (false, none)) ∧
    (∀ e, Database.Ancient db kind number = Except.error e →
      Database.HasAncient db kind number = (false, none)) ∧
    (Database.Has db key).2 = none ∧
    (Database.HasAncient db kind number).2 = none := by
  refine ⟨fun e he => ?_, fun e he => ?_, ?_, ?_⟩
  · unfold Database.Has
    rw [he]
  · unfold Database.HasAncient
    rw [he]
  · unfold Database.Has
    cases Database.Get db key <;> rfl
  · unfold Database.HasAncient
    cases Database.Ancient db kind number <;> rfl

/-- Witness for C10 against the always-failing client. -/
theorem claim_C10_hasNeverErrors_witness :
    Database.Has failingClient [0] = (false, none) ∧
    Database.HasAncient failingClient "headers" 3 = (false, none) :=
  ⟨(claim_C10_hasNeverErrors failingClient [0] "headers" 3).1
      "connection refused" rfl,
    (claim_C10_hasNeverErrors failingClient [0] "headers" 3).2.1
      "connection refused" rfl⟩

end SdcRemoteDb
